import Mathlib

/-
Verification development for the Messenger desktop client's mediation layer.

Shallow embedding of:
  - src/shared/types.ts          (payload validators)
  - src/main/ipc-handlers.ts     (rate limiter, open-external handler)
  - src/main/tray.ts             (debounced unread-count tray updates)
  - src/main/main.ts             (login-detection state machine)
  - the window-manager module    (window bounds restoration)
  - the browser-login module     (one-shot cleanup of the login window)
  - src/preload/preload.ts       (title-based unread-count parsing)

JavaScript dynamic values are modelled by the inductive type `JSValue`;
JS numbers are rationals (plus a separate NaN constructor), which captures
`typeof x === 'number'`, `Number.isInteger`, and the numeric comparisons the
code performs.  Machine time (`Date.now()`, `setTimeout`) is modelled by
explicit `Nat` timestamps in milliseconds, with timers represented as
explicitly scheduled (fireTime, payload) pairs; the host process is
single-threaded and event-driven, so each handler or timer callback runs to
completion and is modelled as a pure state transformer.
-/

namespace MessengerClient

/-- Model of a JavaScript runtime value, covering the shapes the validators in
src/shared/types.ts inspect: `undefined`, `null`, booleans, strings, finite
numbers (as rationals), `NaN`, and plain objects (association lists of
string-keyed fields). -/
inductive JSValue where
  | undef : JSValue
  | null : JSValue
  | bool (b : Bool) : JSValue
  | str (s : String) : JSValue
  | num (q : ℚ) : JSValue
  | nan : JSValue
  | obj (fields : List (String × JSValue)) : JSValue

/-- Field lookup in an object's field list; missing fields read as `undefined`
(JS property access semantics). -/
def lookupField : List (String × JSValue) → String → JSValue
  | [], _ => JSValue.undef
  | (k', v) :: rest, k => if k' = k then v else lookupField rest k

/-- Property access `v[k]`: `undefined` unless `v` is an object holding `k`. -/
def getField : JSValue → String → JSValue
  | JSValue.obj fields, k => lookupField fields k
  | _, _ => JSValue.undef

/-- Whether `typeof v === 'number'` (both finite numbers and NaN). -/
def isJsNumber : JSValue → Bool
  | JSValue.num _ => true
  | JSValue.nan => true
  | _ => false

/-- From src/shared/types.ts `isValidUnreadCount`: requires
`typeof value === 'number' && Number.isInteger(value) && value >= 0 && value <= 9999`.
`Number.isInteger` on a finite rational holds exactly when its denominator is 1;
it is false on NaN. -/
def isValidUnreadCount (value : JSValue) : Bool :=
  match value with
  | JSValue.num q => q.den == 1 && decide (0 ≤ q) && decide (q ≤ 9999)
  | _ => false

/-- From src/shared/types.ts `isValidErrorReportPayload`: requires an object
(`typeof value === 'object'` and not `null`) whose `message` is a non-empty
string of length at most 10000, whose `stack` is `undefined` or a string, whose
`context` is one of `'dom-observer' | 'title-observer' | 'ipc' | 'unknown'`
(the `includes` check on the string array), and whose `timestamp` is a number. -/
def isValidErrorReportPayload (value : JSValue) : Bool :=
  match value with
  | JSValue.obj fields =>
    (match lookupField fields "message" with
     | JSValue.str m => decide (0 < m.length) && decide (m.length ≤ 10000)
     | _ => false) &&
    (match lookupField fields "stack" with
     | JSValue.undef => true
     | JSValue.str _ => true
     | _ => false) &&
    (match lookupField fields "context" with
     | JSValue.str c =>
       c == "dom-observer" || c == "title-observer" || c == "ipc" || c == "unknown"
     | _ => false) &&
    isJsNumber (lookupField fields "timestamp")
  | _ => false

/-- Claimed shape of the error-report validator, written from the claim's own
words: identical to the source validator except that the claimed context enum
is `{dom-observer, title-observer, mediation, unknown}`.  Used only to compare
the claim against the source validator. -/
def claimedErrorReportValid (value : JSValue) : Bool :=
  match value with
  | JSValue.obj fields =>
    (match lookupField fields "message" with
     | JSValue.str m => decide (0 < m.length) && decide (m.length ≤ 10000)
     | _ => false) &&
    (match lookupField fields "stack" with
     | JSValue.undef => true
     | JSValue.str _ => true
     | _ => false) &&
    (match lookupField fields "context" with
     | JSValue.str c =>
       c == "dom-observer" || c == "title-observer" || c == "mediation" || c == "unknown"
     | _ => false) &&
    isJsNumber (lookupField fields "timestamp")
  | _ => false

/-- Concrete error-report payload whose context is `"mediation"`. -/
def mediationPayload : JSValue :=
  JSValue.obj
    [("message", JSValue.str "observer failure"),
     ("context", JSValue.str "mediation"),
     ("timestamp", JSValue.num 1)]

-- ═════════════════════════════════════════════════════════════════
-- Rate limiter (src/main/ipc-handlers.ts)
-- ═════════════════════════════════════════════════════════════════

/-- Per-channel rate-limiter map entry, `{ count, resetTime }` in
src/main/ipc-handlers.ts.  The map is keyed by channel name and entries for
distinct channels are manipulated independently, so a single entry is modelled;
`none` stands for a channel with no entry yet. -/
structure RateLimitState where
  count : Nat
  resetTime : Nat
deriving DecidableEq, Repr

def RATE_LIMIT_WINDOW_MS : Nat := 1000

def RATE_LIMIT_MAX_CALLS : Nat := 10

/-- From src/main/ipc-handlers.ts `isRateLimited` (lines 92-112), for one
channel: given the current time and the channel's map entry, returns whether
the call is blocked, together with the entry after the call.  If no entry
exists or `now > resetTime`, the window is reset to `{count: 1, resetTime: now
+ 1000}` and the call passes; otherwise if `count >= 10` the call is blocked
and the entry is unchanged; otherwise the count is incremented and the call
passes. -/
def isRateLimited (now : Nat) (state : Option RateLimitState) : Bool × RateLimitState :=
  match state with
  | none => (false, ⟨1, now + RATE_LIMIT_WINDOW_MS⟩)
  | some s =>
    if s.resetTime < now then (false, ⟨1, now + RATE_LIMIT_WINDOW_MS⟩)
    else if RATE_LIMIT_MAX_CALLS ≤ s.count then (true, s)
    else (false, ⟨s.count + 1, s.resetTime⟩)

/-- Runs a sequence of timestamped calls on one channel through the rate
limiter, returning the per-call acceptance flags (`true` = accepted, i.e. not
rate-limited) and the final map entry. -/
def runCalls : Option RateLimitState → List Nat → List Bool × Option RateLimitState
  | s, [] => ([], s)
  | s, t :: ts =>
    let r := isRateLimited t s
    let rest := runCalls (some r.2) ts
    ((!r.1) :: rest.1, rest.2)

-- ═════════════════════════════════════════════════════════════════
-- Open-external handler (src/main/ipc-handlers.ts)
-- ═════════════════════════════════════════════════════════════════

/-- From src/main/ipc-handlers.ts `handleOpenExternal` (lines 313-331):
returns whether the handler reaches the shell-open call.  The handler rejects
non-strings and empty strings (`typeof url !== 'string' || !url`), then
rejects anything not passing `url.startsWith('https://')`; every rejection is
an early `return` (no exception), and `shell.openExternal` is only reached on
acceptance. -/
def handleOpenExternalAccepts (url : JSValue) : Bool :=
  match url with
  | JSValue.str s => if s = "" then false else "https://".data.isPrefixOf s.data
  | _ => false

/-- Modelled from the spec: the spec requires "the URL to be syntactically
valid and scheme `https` only" — WHATWG URL syntactic validity, which the
repository delegates to the platform's URL parser (no parser exists in src/).
For an https URL (a special scheme) the parser requires, after a
case-insensitive `https://` prefix, a non-empty host before the first
path/query/fragment delimiter, with no space in the host; `new URL` throws
otherwise.  Only this much of validity is modelled, which is what the claim's
discriminating inputs need. -/
def specIsValidHttpsUrl (s : String) : Bool :=
  let lowerNat : Char → Nat := fun c =>
    if 65 ≤ c.toNat ∧ c.toNat ≤ 90 then c.toNat + 32 else c.toNat
  ((s.data.take 8).map lowerNat == "https://".data.map lowerNat) &&
    (let host := (s.data.drop 8).takeWhile
      (fun c => !(c == '/' || c == '?' || c == '#' || c == ':'))
     !host.isEmpty && !(host.contains ' '))

-- ═════════════════════════════════════════════════════════════════
-- Tray controller (src/main/tray.ts)
-- ═════════════════════════════════════════════════════════════════

def TRAY_UPDATE_DEBOUNCE_MS : Nat := 500

/-- Tray state `{ unreadCount, lastUpdate }` from src/main/tray.ts. -/
structure TrayState where
  unreadCount : Int
  lastUpdate : Nat
deriving DecidableEq, Repr

/-- Tray module state: the `currentState` record plus the single-slot debounce
timer (`debounceTimeout`), modelled as the scheduled fire time and the count
captured by the timer callback. -/
structure TrayModel where
  state : TrayState
  pending : Option (Nat × Int)
deriving DecidableEq, Repr

/-- Tray module state at initialization (`unreadCount: 0`, no timer). -/
def trayInit : TrayModel := ⟨⟨0, 0⟩, none⟩

/-- From src/main/tray.ts `updateUnreadCount` (lines 295-316): rejects
non-integer or negative counts; returns unchanged if the count equals the
currently stored `currentState.unreadCount` (idempotency check); otherwise
cancels any pending debounce timer and schedules `performUnreadUpdate(count)`
for 500 ms later.  The input is a JS number, modelled as a rational. -/
def updateUnreadCount (now : Nat) (count : ℚ) (m : TrayModel) : TrayModel :=
  if count.den = 1 ∧ 0 ≤ count then
    if count = (m.state.unreadCount : ℚ) then m
    else { m with pending := some (now + TRAY_UPDATE_DEBOUNCE_MS, count.num) }
  else m

/-- Fires the pending debounce timer if its scheduled time has been reached
(the event loop runs `performUnreadUpdate` from src/main/tray.ts lines
322-357, which stores the new count and renders the tooltip/badge/overlay).
Returns the new state and the list of counts rendered (empty or singleton). -/
def fireIfDue (now : Nat) (m : TrayModel) : TrayModel × List Int :=
  match m.pending with
  | some fc =>
    if fc.1 ≤ now then
      (⟨⟨fc.2, fc.1⟩, none⟩, [fc.2])
    else (m, [])
  | none => (m, [])

/-- Runs a list of timestamped `updateUnreadCount` calls (times
non-decreasing) through the tray module: before each call, any timer due by
that time fires; returns the final state and all counts rendered. -/
def trayRun : TrayModel → List (Nat × ℚ) → TrayModel × List Int
  | m, [] => (m, [])
  | m, e :: es =>
    let p := fireIfDue e.1 m
    let m2 := updateUnreadCount e.1 e.2 p.1
    let rest := trayRun m2 es
    (rest.1, p.2 ++ rest.2)

/-- Fires the pending timer unconditionally (time has advanced past its
scheduled fire time with no further calls). -/
def flushTray (m : TrayModel) : TrayModel × List Int :=
  match m.pending with
  | some fc => (⟨⟨fc.2, fc.1⟩, none⟩, [fc.2])
  | none => (m, [])

-- ═════════════════════════════════════════════════════════════════
-- Window bounds restoration (window-manager module)
-- ═════════════════════════════════════════════════════════════════

/-- Electron `Rectangle`: `{ x, y, width, height }` with integer device-pixel
coordinates. -/
structure Rect where
  x : Int
  y : Int
  width : Int
  height : Int
deriving DecidableEq, Repr

/-- From the window-manager module `getIntersection`: intersection of two
rectangles, or `null` when the computed width or height is not positive. -/
def getIntersection (a b : Rect) : Option Rect :=
  let x := max a.x b.x
  let y := max a.y b.y
  let w := min (a.x + a.width) (b.x + b.width) - x
  let h := min (a.y + a.height) (b.y + b.height) - y
  if 0 < w ∧ 0 < h then some ⟨x, y, w, h⟩ else none

/-- From the window-manager module `isVisibleOnAnyDisplay`: true when the
bounds intersect some display's work area with intersection area at least
`100 * 100` pixels.  Displays are given by their work-area rectangles. -/
def isVisibleOnAnyDisplay (displays : List Rect) (bounds : Rect) : Bool :=
  displays.any fun workArea =>
    match getIntersection bounds workArea with
    | some r => decide (100 * 100 ≤ r.width * r.height)
    | none => false

/-- Persisted `WindowState` from src/shared/types.ts: optional position,
size, and maximized/fullscreen flags. -/
structure WindowStateRec where
  x : Option Int
  y : Option Int
  width : Int
  height : Int
  isMaximized : Bool
  isFullScreen : Bool
deriving DecidableEq, Repr

/-- From the window-manager module `getWindowState` (lines 104-130): if the
saved state carries a position, the state is returned as-is when the rectangle
is visible on some display, and otherwise returned with `x` and `y` reset to
`undefined` (position discarded, size kept); without a position it is returned
as-is. -/
def getWindowState (displays : List Rect) (saved : WindowStateRec) : WindowStateRec :=
  match saved.x, saved.y with
  | some xv, some yv =>
    if isVisibleOnAnyDisplay displays ⟨xv, yv, saved.width, saved.height⟩ then saved
    else { saved with x := none, y := none }
  | _, _ => saved

-- ═════════════════════════════════════════════════════════════════
-- Login-detection state machine (src/main/main.ts)
-- ═════════════════════════════════════════════════════════════════

def MESSENGER_URL : String := "https://www.messenger.com"

def FACEBOOK_LOGIN_URL : String := "https://www.facebook.com/login"

/-- Whether `pat` occurs as a contiguous subsequence of `s` (JS
`String.prototype.includes`, over character lists). -/
def containsSeq : List Char → List Char → Bool
  | [], pat => pat.isEmpty
  | c :: rest, pat => pat.isPrefixOf (c :: rest) || containsSeq rest pat

/-- JS `String.prototype.includes`: substring containment. -/
def jsIncludes (s : List Char) (pat : String) : Bool := containsSeq s pat.data

/-- Hostname of a URL as computed by `new URL(url).hostname` (platform URL
parser, no parser in src/), restricted to the plain `https://host/...` URLs
the embedded surface navigates: the characters after `https://` up to the
first `/`, `?`, `#` or `:`. -/
def hostnameOf (url : String) : List Char :=
  if "https://".data.isPrefixOf url.data then
    (url.data.drop 8).takeWhile (fun c => !(c == '/' || c == '?' || c == '#' || c == ':'))
  else []

/-- From src/main/main.ts (lines 684-687): whether the session's cookie list
holds a recognized Facebook session cookie (`c_user` or `xs`). -/
def hasFacebookSession (cookieNames : List String) : Bool :=
  cookieNames.any fun n => n == "c_user" || n == "xs"

/-- From src/main/main.ts (lines 690-692): whether the URL is Facebook's bare
homepage (not a login form or checkpoint). -/
def isOnHomepage (url : String) : Bool :=
  url.data == "https://www.facebook.com/".data ||
    url.data == "https://www.facebook.com".data ||
    "https://www.facebook.com/?".data.isPrefixOf url.data

/-- Login-controller state: the persisted `hasLoggedIn` flag, the fire times
of redirect timers scheduled by the 3-second grace delay (`setTimeout(...,
3000)`), and a counter of `store.set('hasLoggedIn', true)` writes (for stating
the exactly-once property). -/
structure LoginModel where
  hasLoggedIn : Bool
  pendingRedirects : List Nat
  setTrueCount : Nat
deriving DecidableEq, Repr

/-- Fresh-install state: `hasLoggedIn` defaults to `false` in the store. -/
def loginInit : LoginModel := ⟨false, [], 0⟩

/-- First block of the `did-navigate` handler (src/main/main.ts lines
682-705): if the user has not logged in and is on facebook.com with a
recognized session cookie and on the bare homepage, schedule a forced
navigation to `MESSENGER_URL` 3000 ms later. -/
def loginRedirectCheck (now : Nat) (url : String) (cookieNames : List String)
    (m : LoginModel) : LoginModel :=
  if m.hasLoggedIn = false ∧ jsIncludes (hostnameOf url) "facebook.com" = true ∧
      hasFacebookSession cookieNames = true ∧ isOnHomepage url = true then
    { m with pendingRedirects := m.pendingRedirects ++ [now + 3000] }
  else m

/-- From src/main/main.ts `did-navigate` handler (lines 676-715): reads the
`hasLoggedIn` flag once; runs the redirect-scheduling block; then, if the
hostname contains `messenger.com` and the flag was unset, persists
`hasLoggedIn = true`. -/
def didNavigate (now : Nat) (url : String) (cookieNames : List String)
    (m : LoginModel) : LoginModel :=
  let m1 := loginRedirectCheck now url cookieNames m
  if jsIncludes (hostnameOf url) "messenger.com" = true then
    if m.hasLoggedIn = false then
      { m1 with hasLoggedIn := true, setTrueCount := m1.setTrueCount + 1 }
    else m1
  else m1

/-- Runs a trace of navigation events (time, url, session cookie names)
through the `did-navigate` handler. -/
def runLogin (m : LoginModel) : List (Nat × String × List String) → LoginModel
  | [] => m
  | e :: es => runLogin (didNavigate e.1 e.2.1 e.2.2 m) es

/-- From src/main/main.ts startup (lines 1125-1135): the URL loaded at launch
given the persisted `hasLoggedIn` flag. -/
def initialNavTarget (hasLoggedIn : Bool) : String :=
  if hasLoggedIn then MESSENGER_URL else FACEBOOK_LOGIN_URL

-- ═════════════════════════════════════════════════════════════════
-- Browser-login one-shot cleanup (browser-login module)
-- ═════════════════════════════════════════════════════════════════

/-- State of a `BrowserLogin` run after `startLogin` has set up the window,
the resolver and the 5-minute timeout: the `isCleanedUp` guard flag, which
resources are still live, and counters of cleanup-body executions and promise
resolutions (for stating at-most-once / exactly-once). -/
structure BrowserLoginModel where
  isCleanedUp : Bool
  timeoutArmed : Bool
  intervalArmed : Bool
  windowOpen : Bool
  resolverArmed : Bool
  cleanupRuns : Nat
  resolveCount : Nat
deriving DecidableEq, Repr

/-- State established by `startLogin` (lines 256-319): guard flag unset,
timeout armed, no check interval, login window open, promise resolver stored,
nothing yet run or resolved. -/
def startLoginInit : BrowserLoginModel :=
  ⟨false, true, false, true, true, 0, 0⟩

/-- From the browser-login module `cleanup` (lines 401-436): returns
immediately if `isCleanedUp` is set; otherwise sets the flag, clears the
timeout and interval, closes the window (after detaching its listeners, so no
recursive trigger), resolves the stored promise resolver if present, and nulls
it.  Every cleanup trigger — user window close, the 5-minute timeout, a page
load failure, or an external `stop()` — invokes exactly this function. -/
def cleanup (m : BrowserLoginModel) : BrowserLoginModel :=
  if m.isCleanedUp then m
  else
    { isCleanedUp := true
      timeoutArmed := false
      intervalArmed := false
      windowOpen := false
      resolverArmed := false
      cleanupRuns := m.cleanupRuns + 1
      resolveCount := m.resolveCount + (if m.resolverArmed then 1 else 0) }

-- ═════════════════════════════════════════════════════════════════
-- Title parsing (src/preload/preload.ts)
-- ═════════════════════════════════════════════════════════════════

/-- JS regex `\d`: an ASCII digit. -/
def isDigitChar (c : Char) : Bool := '0' ≤ c && c ≤ '9'

/-- Longest digit prefix of a character list and the remainder (the greedy
`\d+` match). -/
def takeDigits : List Char → List Char × List Char
  | [] => ([], [])
  | c :: cs =>
    if isDigitChar c then
      let p := takeDigits cs
      (c :: p.1, p.2)
    else ([], c :: cs)

/-- Numeric value of a digit string (`parseInt(..., 10)` on a string of
ASCII digits). -/
def digitsToNat (ds : List Char) : Nat :=
  ds.foldl (fun acc c => acc * 10 + (c.toNat - '0'.toNat)) 0

/-- Matcher for the anchored regex `^\((\d+)\+?\)` from
src/preload/preload.ts: the title must start with `(`, then one or more
digits, then an optional `+`, then `)`; returns the captured digit group. -/
def matchUnreadMarker (title : List Char) : Option (List Char) :=
  match title with
  | [] => none
  | c :: rest =>
    if c = '(' then
      let p := takeDigits rest
      if p.1.isEmpty then none
      else
        match p.2 with
        | [] => none
        | c2 :: r2 =>
          if c2 = ')' then some p.1
          else if c2 = '+' then
            match r2 with
            | [] => none
            | c3 :: _ => if c3 = ')' then some p.1 else none
          else none
    else none

/-- From src/preload/preload.ts `parseUnreadFromTitle` (lines 48-61): parses
the captured digits and returns the value when the sanity check
`0 ≤ count ≤ 9999` passes, and 0 in every other case (no match or
out-of-range value); the function is total. -/
def parseUnreadFromTitle (title : List Char) : Nat :=
  match matchUnreadMarker title with
  | some ds => if digitsToNat ds ≤ 9999 then digitsToNat ds else 0
  | none => 0

/-- The title starts with the unread marker `(N)` or `(N+)` where the digit
group has numeric value `n` (specification-level description of the
pattern). -/
def HasUnreadMarker (t : List Char) (n : Nat) : Prop :=
  ∃ ds rest, ds ≠ [] ∧ (∀ c ∈ ds, isDigitChar c = true) ∧ digitsToNat ds = n ∧
    (t = '(' :: (ds ++ ')' :: rest) ∨ t = '(' :: (ds ++ '+' :: ')' :: rest))

-- ═════════════════════════════════════════════════════════════════
-- Theorems
-- ═════════════════════════════════════════════════════════════════

/-- C7: for all inputs, the unread-count validator holds iff the input is a
number that is an integer with 0 ≤ n ≤ 9999; in particular it accepts 0 and
9999 and rejects -1, 10000, 3.5, and the string "5". -/
theorem isValidUnreadCount_correct :
    (∀ v : JSValue, isValidUnreadCount v = true ↔
      ∃ n : ℤ, v = JSValue.num (n : ℚ) ∧ 0 ≤ n ∧ n ≤ 9999) ∧
    isValidUnreadCount (JSValue.num 0) = true ∧
    isValidUnreadCount (JSValue.num 9999) = true ∧
    isValidUnreadCount (JSValue.num (-1)) = false ∧
    isValidUnreadCount (JSValue.num 10000) = false ∧
    isValidUnreadCount (JSValue.num (mkRat 7 2)) = false ∧
    isValidUnreadCount (JSValue.str "5") = false := by
  refine ⟨?_, by decide, by decide, by decide, by decide, by decide, by decide⟩
  intro v
  cases v with
  | num q =>
    simp only [isValidUnreadCount, Bool.and_eq_true, beq_iff_eq, decide_eq_true_eq,
      JSValue.num.injEq]
    constructor
    · rintro ⟨⟨hden, h0⟩, h9⟩
      have hq : (q.num : ℚ) = q := (Rat.den_eq_one_iff q).mp hden
      refine ⟨q.num, hq.symm, Rat.num_nonneg.mpr h0, ?_⟩
      have : (q.num : ℚ) ≤ ((9999 : ℤ) : ℚ) := by rw [hq]; exact_mod_cast h9
      exact_mod_cast this
    · rintro ⟨n, hn, h0, h9⟩
      subst hn
      refine ⟨⟨Rat.den_intCast n, ?_⟩, ?_⟩
      · exact_mod_cast h0
      · exact_mod_cast h9
  | undef => simp [isValidUnreadCount]
  | null => simp [isValidUnreadCount]
  | bool b => simp [isValidUnreadCount]
  | str s => simp [isValidUnreadCount]
  | nan => simp [isValidUnreadCount]
  | obj fields => simp [isValidUnreadCount]

/-- C6 counterexample: the error-report payload whose context is
`"mediation"` satisfies the claim's validator shape (claimed enum
`{dom-observer, title-observer, mediation, unknown}`) but is rejected by the
source validator, whose enum is `{dom-observer, title-observer, ipc,
unknown}`. -/
theorem errorReport_context_enum_counterexample :
    claimedErrorReportValid mediationPayload = true ∧
    isValidErrorReportPayload mediationPayload = false := by
  constructor <;> decide

/-- C6 (amended): the error-report validator holds for a value exactly when
it is an object whose `message` is a non-empty string of length at most
10000, whose `stack` is absent (`undefined`) or a string, whose `context` is
one of `dom-observer`, `title-observer`, `ipc`, or `unknown`, and whose
`timestamp` is a number; every other value is rejected. -/
theorem isValidErrorReportPayload_iff (v : JSValue) :
    isValidErrorReportPayload v = true ↔
      ((∃ fields, v = JSValue.obj fields) ∧
       (∃ m, getField v "message" = JSValue.str m ∧ 0 < m.length ∧ m.length ≤ 10000) ∧
       (getField v "stack" = JSValue.undef ∨ ∃ s, getField v "stack" = JSValue.str s) ∧
       (getField v "context" = JSValue.str "dom-observer" ∨
        getField v "context" = JSValue.str "title-observer" ∨
        getField v "context" = JSValue.str "ipc" ∨
        getField v "context" = JSValue.str "unknown") ∧
       ((∃ q, getField v "timestamp" = JSValue.num q) ∨
        getField v "timestamp" = JSValue.nan)) := by
  cases v with
  | obj fields =>
    have h1 : (match lookupField fields "message" with
        | JSValue.str m => decide (0 < m.length) && decide (m.length ≤ 10000)
        | _ => false) = true ↔
        (∃ m, lookupField fields "message" = JSValue.str m ∧
          0 < m.length ∧ m.length ≤ 10000) := by
      cases hm : lookupField fields "message" <;> simp [hm]
    have h2 : (match lookupField fields "stack" with
        | JSValue.undef => true
        | JSValue.str _ => true
        | _ => false) = true ↔
        (lookupField fields "stack" = JSValue.undef ∨
          ∃ s, lookupField fields "stack" = JSValue.str s) := by
      cases hs : lookupField fields "stack" <;> simp [hs]
    have h3 : (match lookupField fields "context" with
        | JSValue.str c =>
          c == "dom-observer" || c == "title-observer" || c == "ipc" || c == "unknown"
        | _ => false) = true ↔
        (lookupField fields "context" = JSValue.str "dom-observer" ∨
         lookupField fields "context" = JSValue.str "title-observer" ∨
         lookupField fields "context" = JSValue.str "ipc" ∨
         lookupField fields "context" = JSValue.str "unknown") := by
      cases hc : lookupField fields "context" <;> simp [hc, or_assoc]
    have h4 : isJsNumber (lookupField fields "timestamp") = true ↔
        ((∃ q, lookupField fields "timestamp" = JSValue.num q) ∨
         lookupField fields "timestamp" = JSValue.nan) := by
      cases ht : lookupField fields "timestamp" <;> simp [isJsNumber, ht]
    simp only [isValidErrorReportPayload, Bool.and_eq_true, getField]
    rw [h1, h2, h3, h4]
    simp [and_assoc]
  | undef => simp [isValidErrorReportPayload, getField]
  | null => simp [isValidErrorReportPayload, getField]
  | bool b => simp [isValidErrorReportPayload, getField]
  | str s => simp [isValidErrorReportPayload, getField]
  | num q => simp [isValidErrorReportPayload, getField]
  | nan => simp [isValidErrorReportPayload, getField]

/-- C2 counterexample: the string `"https://"` passes the handler's
prefix-only check and reaches the shell-open call, although it is not a
syntactically valid URL (an https URL requires a non-empty host; `new
URL("https://")` throws), so acceptance is not equivalent to syntactic
validity with scheme https. -/
theorem openExternal_accepts_invalid_url :
    handleOpenExternalAccepts (JSValue.str "https://") = true ∧
    specIsValidHttpsUrl "https://" = false := by
  constructor <;> decide

/-- C2 (amended): the open-external handler accepts an input exactly when it
is a string starting with `"https://"` (a prefix check only; no full
syntactic validation is performed); every other input — non-string, empty
string, non-https scheme, or an arbitrary malformed string — is rejected by
an early return, without throwing and before any shell-open call; in
particular `"http://example.com"` is rejected, `"https://example.com"` is
accepted, and `"not a url"` is rejected. -/
theorem handleOpenExternal_spec :
    (∀ v : JSValue, handleOpenExternalAccepts v = true ↔
      ∃ s, v = JSValue.str s ∧ "https://".data <+: s.data) ∧
    handleOpenExternalAccepts (JSValue.str "http://example.com") = false ∧
    handleOpenExternalAccepts (JSValue.str "https://example.com") = true ∧
    handleOpenExternalAccepts (JSValue.str "not a url") = false ∧
    handleOpenExternalAccepts JSValue.undef = false ∧
    handleOpenExternalAccepts (JSValue.str "") = false := by
  refine ⟨?_, by decide, by decide, by decide, by decide, by decide⟩
  intro v
  cases v with
  | str s =>
    simp only [handleOpenExternalAccepts, JSValue.str.injEq]
    by_cases hs : s = ""
    · subst hs
      simp
    · simp [hs, List.isPrefixOf_iff_prefix]
  | undef => simp [handleOpenExternalAccepts]
  | null => simp [handleOpenExternalAccepts]
  | bool b => simp [handleOpenExternalAccepts]
  | num q => simp [handleOpenExternalAccepts]
  | nan => simp [handleOpenExternalAccepts]
  | obj fields => simp [handleOpenExternalAccepts]

/-- C9: calling the tray update entry point with a value equal to the
currently stored unread count is a no-op: the module state (including the
pending debounce timer slot) is returned unchanged, so no timer is scheduled,
none is cancelled, and nothing is rendered or mutated. -/
theorem updateUnreadCount_idempotent (now : Nat) (m : TrayModel) :
    updateUnreadCount now ((m.state.unreadCount : ℚ)) m = m := by
  unfold updateUnreadCount
  by_cases h : ((m.state.unreadCount : ℚ)).den = 1 ∧ (0 : ℚ) ≤ (m.state.unreadCount : ℚ)
  · rw [if_pos h, if_pos rfl]
  · rw [if_neg h]

/-- C10: for every run of the browser-login flow and every nonempty sequence
of cleanup triggers (window close, 5-minute timeout, load failure, external
stop), the cleanup body executes exactly once — once the guard flag is set,
further triggers are no-ops — and the promise returned by `startLogin` is
resolved exactly once. -/
theorem browserLogin_cleanup_one_shot :
    (∀ m : BrowserLoginModel, m.isCleanedUp = true → cleanup m = m) ∧
    (∀ n : Nat, 1 ≤ n →
      (cleanup^[n] startLoginInit).cleanupRuns = 1 ∧
      (cleanup^[n] startLoginInit).resolveCount = 1) := by
  have hstable : ∀ m : BrowserLoginModel, m.isCleanedUp = true → cleanup m = m := by
    intro m h
    simp [cleanup, h]
  refine ⟨hstable, ?_⟩
  have key : ∀ n : Nat, cleanup^[n + 1] startLoginInit = cleanup startLoginInit := by
    intro n
    induction n with
    | zero => rfl
    | succ k ih =>
      rw [Function.iterate_succ_apply', ih]
      exact hstable _ rfl
  intro n hn
  cases n with
  | zero => omega
  | succ k => rw [key k]; exact ⟨rfl, rfl⟩

/-- Witness for C10: three successive cleanup triggers after `startLogin`
leave exactly one cleanup-body execution and one promise resolution, and a
cleanup call on an already-cleaned state is the identity. -/
theorem browserLogin_cleanup_one_shot_witness :
    cleanup ⟨true, false, false, false, false, 1, 1⟩ =
      ⟨true, false, false, false, false, 1, 1⟩ ∧
    ((cleanup^[3] startLoginInit).cleanupRuns = 1 ∧
     (cleanup^[3] startLoginInit).resolveCount = 1) :=
  ⟨browserLogin_cleanup_one_shot.1 _ rfl, browserLogin_cleanup_one_shot.2 3 (by decide)⟩

/-- Helper: splitting off the head of an acceptance-flag pattern
`[decide (c + 0 < 10), decide (c + 1 < 10), ...]`. -/
theorem mapDecideShift (c n : Nat) :
    (List.range (n + 1)).map (fun i => decide (c + i < 10)) =
      decide (c < 10) :: (List.range n).map (fun i => decide (c + 1 + i < 10)) := by
  rw [List.range_succ_eq_map, List.map_cons, List.map_map]
  refine congrArg₂ List.cons ?_ ?_
  · show decide (c + 0 < 10) = decide (c < 10)
    exact decide_eq_decide.mpr (by omega)
  · apply List.map_congr_left
    intro a _
    show decide (c + (a + 1) < 10) = decide (c + 1 + a < 10)
    exact decide_eq_decide.mpr (by omega)

/-- Helper: while the window is live (each call time at most the stored reset
time), the i-th call on the channel is accepted exactly when the stored count
plus i is below the cap of 10. -/
theorem runCalls_flags_within (r : Nat) :
    ∀ (ts : List Nat) (c : Nat), (∀ t ∈ ts, t ≤ r) →
      (runCalls (some ⟨c, r⟩) ts).1 =
        (List.range ts.length).map (fun i => decide (c + i < 10)) := by
  intro ts
  induction ts with
  | nil => intro c _; rfl
  | cons t ts ih =>
    intro c h
    have ht : t ≤ r := h t (by simp)
    have hts : ∀ t' ∈ ts, t' ≤ r := fun t' h' => h t' (by simp [h'])
    simp only [runCalls, isRateLimited, List.length_cons]
    rw [if_neg (by omega)]
    rw [mapDecideShift]
    by_cases hc : RATE_LIMIT_MAX_CALLS ≤ c
    · rw [if_pos hc]
      have hcf : decide (c < 10) = false := by
        simp only [decide_eq_false_iff_not]
        unfold RATE_LIMIT_MAX_CALLS at hc
        omega
      rw [hcf]
      simp only [Bool.not_true, List.cons.injEq, true_and]
      rw [ih c hts]
      apply List.map_congr_left
      intro a _
      refine decide_eq_decide.mpr ?_
      unfold RATE_LIMIT_MAX_CALLS at hc
      omega
    · rw [if_neg hc]
      have hct : decide (c < 10) = true := by
        simp only [decide_eq_true_eq]
        unfold RATE_LIMIT_MAX_CALLS at hc
        omega
      rw [hct]
      simp only [Bool.not_false, List.cons.injEq, true_and]
      exact ih (c + 1) hts

/-- Helper: while the window is live, the stored reset time never changes. -/
theorem runCalls_state_within (r : Nat) :
    ∀ (ts : List Nat) (c : Nat), (∀ t ∈ ts, t ≤ r) →
      ∃ c', (runCalls (some ⟨c, r⟩) ts).2 = some ⟨c', r⟩ := by
  intro ts
  induction ts with
  | nil => intro c _; exact ⟨c, rfl⟩
  | cons t ts ih =>
    intro c h
    have ht : t ≤ r := h t (by simp)
    have hts : ∀ t' ∈ ts, t' ≤ r := fun t' h' => h t' (by simp [h'])
    simp only [runCalls, isRateLimited]
    rw [if_neg (by omega)]
    by_cases hc : RATE_LIMIT_MAX_CALLS ≤ c
    · rw [if_pos hc]; exact ih c hts
    · rw [if_neg hc]; exact ih (c + 1) hts

/-- C1: the per-channel rate limiter is a fixed-window counter.  With no map
entry, or with the current window expired (`resetTime < now`), the call is
accepted and a fresh window `{count: 1, resetTime: now + 1000}` is started;
inside a live window the call is accepted (incrementing the count, which
equals the number of accepted calls this window) exactly when the count is
below 10 and rejected when it has reached 10; consequently, of 11 calls whose
times all fall inside the window opened by the first call, exactly the first
10 are accepted and the 11th is rejected, and a later call past the window's
reset time is accepted and starts a fresh window. -/
theorem rateLimiter_fixed_window :
    (∀ now : Nat, isRateLimited now none = (false, ⟨1, now + 1000⟩)) ∧
    (∀ (now : Nat) (s : RateLimitState), s.resetTime < now →
      isRateLimited now (some s) = (false, ⟨1, now + 1000⟩)) ∧
    (∀ (now : Nat) (s : RateLimitState), now ≤ s.resetTime → s.count < 10 →
      isRateLimited now (some s) = (false, ⟨s.count + 1, s.resetTime⟩)) ∧
    (∀ (now : Nat) (s : RateLimitState), now ≤ s.resetTime → 10 ≤ s.count →
      isRateLimited now (some s) = (true, s)) ∧
    (∀ (t0 u : Nat) (ts : List Nat), (∀ t ∈ ts, t ≤ t0 + 1000) → t0 + 1000 < u →
      (runCalls none (t0 :: ts)).1 =
        (List.range (ts.length + 1)).map (fun i => decide (i < 10)) ∧
      ∃ c', (runCalls none (t0 :: ts)).2 = some ⟨c', t0 + 1000⟩ ∧
        isRateLimited u (some ⟨c', t0 + 1000⟩) = (false, ⟨1, u + 1000⟩)) := by
  have hwin : RATE_LIMIT_WINDOW_MS = 1000 := rfl
  refine ⟨?_, ?_, ?_, ?_, ?_⟩
  · intro now; simp [isRateLimited, hwin]
  · intro now s h
    simp only [isRateLimited]
    rw [if_pos h, hwin]
  · intro now s h hc
    simp only [isRateLimited]
    rw [if_neg (by omega), if_neg (by unfold RATE_LIMIT_MAX_CALLS; omega)]
  · intro now s h hc
    simp only [isRateLimited]
    rw [if_neg (by omega), if_pos (by unfold RATE_LIMIT_MAX_CALLS; omega)]
  · intro t0 u ts hts hu
    have hstep : isRateLimited t0 none = (false, ⟨1, t0 + 1000⟩) := by
      simp [isRateLimited, hwin]
    constructor
    · simp only [runCalls, hstep]
      rw [runCalls_flags_within (t0 + 1000) ts 1 hts]
      have : (List.range (ts.length + 1)).map (fun i => decide (i < 10)) =
          (List.range (ts.length + 1)).map (fun i => decide (0 + i < 10)) := by
        apply List.map_congr_left
        intro a _
        exact decide_eq_decide.mpr (by omega)
      rw [this, mapDecideShift]
      simp
    · obtain ⟨c', hc'⟩ := runCalls_state_within (t0 + 1000) ts 1 hts
      refine ⟨c', ?_, ?_⟩
      · simp only [runCalls, hstep]
        exact hc'
      · simp only [isRateLimited]
        rw [if_pos (by simpa using hu), hwin]

/-- Witness for C1: with the window opened at time 0, ten further calls at
times 100..1000 (all inside the window) give acceptance flags
true×10 ++ [false] — the 11th call is rejected — and a call at time 1500
(past the reset time 1000) is accepted and starts a fresh window; the
expired-window, in-window-accept and in-window-reject step rules are also
applied at concrete states. -/
theorem rateLimiter_fixed_window_witness :
    isRateLimited 1001 (some ⟨5, 1000⟩) = (false, ⟨1, 1001 + 1000⟩) ∧
    isRateLimited 900 (some ⟨5, 1000⟩) = (false, ⟨6, 1000⟩) ∧
    isRateLimited 900 (some ⟨10, 1000⟩) = (true, ⟨10, 1000⟩) ∧
    ((runCalls none
        (0 :: [100, 200, 300, 400, 500, 600, 700, 800, 900, 1000])).1 =
      (List.range (10 + 1)).map (fun i => decide (i < 10)) ∧
     ∃ c', (runCalls none
        (0 :: [100, 200, 300, 400, 500, 600, 700, 800, 900, 1000])).2 =
          some ⟨c', 0 + 1000⟩ ∧
       isRateLimited 1500 (some ⟨c', 0 + 1000⟩) = (false, ⟨1, 1500 + 1000⟩)) :=
  ⟨rateLimiter_fixed_window.2.1 1001 ⟨5, 1000⟩ (by decide),
   rateLimiter_fixed_window.2.2.1 900 ⟨5, 1000⟩ (by decide) (by decide),
   rateLimiter_fixed_window.2.2.2.1 900 ⟨10, 1000⟩ (by decide) (by decide),
   rateLimiter_fixed_window.2.2.2.2 0 1500
     [100, 200, 300, 400, 500, 600, 700, 800, 900, 1000] (by decide) (by decide)⟩

/-- Helper: the visibility check holds exactly when some display's work area
intersects the bounds in a rectangle of area at least 100×100. -/
theorem isVisibleOnAnyDisplay_iff (displays : List Rect) (bounds : Rect) :
    isVisibleOnAnyDisplay displays bounds = true ↔
      ∃ workArea ∈ displays, ∃ r, getIntersection bounds workArea = some r ∧
        100 * 100 ≤ r.width * r.height := by
  simp only [isVisibleOnAnyDisplay, List.any_eq_true]
  constructor
  · rintro ⟨w, hw, hmatch⟩
    refine ⟨w, hw, ?_⟩
    revert hmatch
    cases hi : getIntersection bounds w with
    | some r => intro hmatch; exact ⟨r, rfl, by simpa using hmatch⟩
    | none => intro hmatch; simp at hmatch
  · rintro ⟨w, hw, r, hr, harea⟩
    refine ⟨w, hw, ?_⟩
    rw [hr]
    simpa using harea

/-- C5: a persisted window state carrying a position is returned unchanged by
`getWindowState` exactly when its rectangle intersects at least one display's
work area in a region of area at least 100×100 px; otherwise the `x` and `y`
fields are discarded (made `undefined`) while `width`, `height`,
`isMaximized` and `isFullScreen` are returned unchanged. -/
theorem getWindowState_position_validation
    (displays : List Rect) (saved : WindowStateRec) (xv yv : Int)
    (hx : saved.x = some xv) (hy : saved.y = some yv) :
    (getWindowState displays saved = saved ↔
      ∃ workArea ∈ displays, ∃ r,
        getIntersection ⟨xv, yv, saved.width, saved.height⟩ workArea = some r ∧
        100 * 100 ≤ r.width * r.height) ∧
    (¬ (∃ workArea ∈ displays, ∃ r,
        getIntersection ⟨xv, yv, saved.width, saved.height⟩ workArea = some r ∧
        100 * 100 ≤ r.width * r.height) →
      (getWindowState displays saved).x = none ∧
      (getWindowState displays saved).y = none ∧
      (getWindowState displays saved).width = saved.width ∧
      (getWindowState displays saved).height = saved.height ∧
      (getWindowState displays saved).isMaximized = saved.isMaximized ∧
      (getWindowState displays saved).isFullScreen = saved.isFullScreen) := by
  have hget : getWindowState displays saved =
      (if isVisibleOnAnyDisplay displays ⟨xv, yv, saved.width, saved.height⟩ then saved
       else { saved with x := none, y := none }) := by
    unfold getWindowState
    rw [hx, hy]
  constructor
  · rw [← isVisibleOnAnyDisplay_iff]
    constructor
    · intro heq
      by_contra hvis
      have hvis' : isVisibleOnAnyDisplay displays ⟨xv, yv, saved.width, saved.height⟩ = false :=
        Bool.eq_false_iff.mpr hvis
      rw [hget, hvis'] at heq
      simp only [Bool.false_eq_true, if_false] at heq
      have : saved.x = none := by rw [← heq]
      rw [hx] at this
      exact Option.some_ne_none xv this
    · intro hvis
      rw [hget, hvis]
      simp
  · intro hvis
    have hvis' : isVisibleOnAnyDisplay displays ⟨xv, yv, saved.width, saved.height⟩ = false := by
      rw [← isVisibleOnAnyDisplay_iff] at hvis
      exact Bool.eq_false_iff.mpr hvis
    rw [hget, hvis']
    simp

/-- Witness for C5: a 1920×1080 work area at the origin; a saved 800×600
window at (100, 100) is visible and returned unchanged, and the position
saved at (5000, 5000) — fully outside the work area — loses `x`/`y` while
size and flags are preserved. -/
theorem getWindowState_position_validation_witness :
    getWindowState [⟨0, 0, 1920, 1080⟩]
      ⟨some 100, some 100, 800, 600, false, false⟩ =
      ⟨some 100, some 100, 800, 600, false, false⟩ ∧
    ((getWindowState [⟨0, 0, 1920, 1080⟩]
        ⟨some 5000, some 5000, 800, 600, true, false⟩).x = none ∧
     (getWindowState [⟨0, 0, 1920, 1080⟩]
        ⟨some 5000, some 5000, 800, 600, true, false⟩).y = none ∧
     (getWindowState [⟨0, 0, 1920, 1080⟩]
        ⟨some 5000, some 5000, 800, 600, true, false⟩).width = 800 ∧
     (getWindowState [⟨0, 0, 1920, 1080⟩]
        ⟨some 5000, some 5000, 800, 600, true, false⟩).height = 600 ∧
     (getWindowState [⟨0, 0, 1920, 1080⟩]
        ⟨some 5000, some 5000, 800, 600, true, false⟩).isMaximized = true ∧
     (getWindowState [⟨0, 0, 1920, 1080⟩]
        ⟨some 5000, some 5000, 800, 600, true, false⟩).isFullScreen = false) :=
  ⟨(getWindowState_position_validation [⟨0, 0, 1920, 1080⟩]
      ⟨some 100, some 100, 800, 600, false, false⟩ 100 100 rfl rfl).1.mpr
      ⟨⟨0, 0, 1920, 1080⟩, by decide, ⟨100, 100, 800, 600⟩, by decide, by decide⟩,
   (getWindowState_position_validation [⟨0, 0, 1920, 1080⟩]
      ⟨some 5000, some 5000, 800, 600, true, false⟩ 5000 5000 rfl rfl).2
      (by decide)⟩

/-- Helper: the redirect-scheduling block never changes the login flag. -/
theorem loginRedirectCheck_hasLoggedIn (now : Nat) (url : String)
    (ck : List String) (m : LoginModel) :
    (loginRedirectCheck now url ck m).hasLoggedIn = m.hasLoggedIn := by
  unfold loginRedirectCheck
  split <;> rfl

/-- Helper: the redirect-scheduling block never writes the persisted flag. -/
theorem loginRedirectCheck_setTrueCount (now : Nat) (url : String)
    (ck : List String) (m : LoginModel) :
    (loginRedirectCheck now url ck m).setTrueCount = m.setTrueCount := by
  unfold loginRedirectCheck
  split <;> rfl

/-- Helper: once `hasLoggedIn` is set, the `did-navigate` handler is the
identity on the login state. -/
theorem didNavigate_loggedIn_fixed (now : Nat) (url : String)
    (ck : List String) (m : LoginModel) (hm : m.hasLoggedIn = true) :
    didNavigate now url ck m = m := by
  have hrc : loginRedirectCheck now url ck m = m := by
    unfold loginRedirectCheck
    rw [if_neg]
    rintro ⟨h, -⟩
    rw [hm] at h
    cases h
  simp [didNavigate, hrc, hm]

/-- Helper: each navigation either leaves the flag and its write counter
unchanged, or performs the single false→true transition. -/
theorem didNavigate_count_step (now : Nat) (url : String)
    (ck : List String) (m : LoginModel) :
    ((didNavigate now url ck m).setTrueCount = m.setTrueCount ∧
     (didNavigate now url ck m).hasLoggedIn = m.hasLoggedIn) ∨
    (m.hasLoggedIn = false ∧
     (didNavigate now url ck m).setTrueCount = m.setTrueCount + 1 ∧
     (didNavigate now url ck m).hasLoggedIn = true) := by
  by_cases hm : m.hasLoggedIn = true
  · left
    rw [didNavigate_loggedIn_fixed now url ck m hm]
    exact ⟨rfl, rfl⟩
  · have hm' : m.hasLoggedIn = false := by
      revert hm; cases m.hasLoggedIn <;> simp
    by_cases hin : jsIncludes (hostnameOf url) "messenger.com" = true
    · right
      refine ⟨hm', ?_, ?_⟩ <;>
        simp [didNavigate, hin, hm', loginRedirectCheck_setTrueCount]
    · left
      constructor <;>
        simp [didNavigate, hin, loginRedirectCheck_setTrueCount,
          loginRedirectCheck_hasLoggedIn]

/-- Helper: once logged in, no navigation trace changes the login state. -/
theorem runLogin_loggedIn_fixed :
    ∀ (trace : List (Nat × String × List String)) (m : LoginModel),
      m.hasLoggedIn = true → runLogin m trace = m := by
  intro trace
  induction trace with
  | nil => intro m _; rfl
  | cons e es ih =>
    intro m hm
    simp only [runLogin]
    rw [didNavigate_loggedIn_fixed e.1 e.2.1 e.2.2 m hm]
    exact ih m hm

/-- Helper: from a not-logged-in state, a navigation trace performs the
persisted false→true write at most once. -/
theorem runLogin_count_le :
    ∀ (trace : List (Nat × String × List String)) (m : LoginModel),
      m.hasLoggedIn = false →
      (runLogin m trace).setTrueCount ≤ m.setTrueCount + 1 := by
  intro trace
  induction trace with
  | nil => intro m _; exact Nat.le_succ _
  | cons e es ih =>
    intro m hm
    simp only [runLogin]
    rcases didNavigate_count_step e.1 e.2.1 e.2.2 m with ⟨hc, hflag⟩ | ⟨-, hc, hflag⟩
    · have hflag' : (didNavigate e.1 e.2.1 e.2.2 m).hasLoggedIn = false := by
        rw [hflag, hm]
      have := ih (didNavigate e.1 e.2.1 e.2.2 m) hflag'
      omega
    · rw [runLogin_loggedIn_fixed es _ hflag, hc]

/-- C4: the login state machine.  From `hasLoggedIn = false`, a navigation to
the identity provider's bare homepage with the required auth cookies
(`c_user` and `xs`) present in the session transitions to
AwaitingConfirmation: a forced navigation to the messaging root URL is
scheduled 3000 ms later and the flag stays false for now.  Any navigation
whose hostname contains `messenger.com` — any URL arriving at the messaging
domain, in particular the scheduled redirect to `MESSENGER_URL` — leaves
`hasLoggedIn = true`.  Once true, every navigation is a no-op on the login
state (the flag is never unset), and over any navigation trace from a fresh
install the persisted false→true write happens at most once.  A subsequent
fresh launch with the persisted flag loads the messaging root directly. -/
theorem loginStateMachine_spec :
    (∀ (now : Nat) (cookies : List String) (m : LoginModel),
      m.hasLoggedIn = false → "c_user" ∈ cookies → "xs" ∈ cookies →
      didNavigate now "https://www.facebook.com/" cookies m =
        { m with pendingRedirects := m.pendingRedirects ++ [now + 3000] }) ∧
    (∀ (now : Nat) (url : String) (cookies : List String) (m : LoginModel),
      jsIncludes (hostnameOf url) "messenger.com" = true →
      (didNavigate now url cookies m).hasLoggedIn = true) ∧
    (∀ (t : Nat) (cookies : List String) (m : LoginModel),
      (didNavigate t MESSENGER_URL cookies m).hasLoggedIn = true) ∧
    (∀ (now : Nat) (url : String) (cookies : List String) (m : LoginModel),
      m.hasLoggedIn = true → didNavigate now url cookies m = m) ∧
    (∀ trace : List (Nat × String × List String),
      (runLogin loginInit trace).setTrueCount ≤ 1) ∧
    initialNavTarget true = MESSENGER_URL := by
  have hgen : ∀ (now : Nat) (url : String) (cookies : List String) (m : LoginModel),
      jsIncludes (hostnameOf url) "messenger.com" = true →
      (didNavigate now url cookies m).hasLoggedIn = true := by
    intro now url cookies m hin
    by_cases hm : m.hasLoggedIn = true
    · rw [didNavigate_loggedIn_fixed now url cookies m hm]
      exact hm
    · have hm' : m.hasLoggedIn = false := by
        revert hm; cases m.hasLoggedIn <;> simp
      simp [didNavigate, hin, hm']
  refine ⟨?_, hgen,
    fun t cookies m => hgen t MESSENGER_URL cookies m (by decide), ?_, ?_, rfl⟩
  · intro now cookies m hm hc _
    have hsess : hasFacebookSession cookies = true := by
      unfold hasFacebookSession
      rw [List.any_eq_true]
      exact ⟨"c_user", hc, by decide⟩
    have h1 : jsIncludes (hostnameOf "https://www.facebook.com/") "facebook.com" = true := by
      decide
    have h2 : jsIncludes (hostnameOf "https://www.facebook.com/") "messenger.com" = false := by
      decide
    have h3 : isOnHomepage "https://www.facebook.com/" = true := by decide
    simp [didNavigate, loginRedirectCheck, hm, hsess, h1, h2, h3]
  · exact fun now url cookies m hm => didNavigate_loggedIn_fixed now url cookies m hm
  · intro trace
    exact runLogin_count_le trace loginInit rfl

/-- Witness for C4: from a fresh install, navigating to the Facebook bare
homepage with both auth cookies schedules the forced redirect at 3000 ms; a
navigation to the in-domain conversation URL `https://www.messenger.com/t/1`
from a not-logged-in state sets the flag, as does the redirect navigation to
the messaging root itself; a navigation on a logged-in state is a no-op; and
a concrete two-step trace writes the flag exactly once. -/
theorem loginStateMachine_spec_witness :
    didNavigate 0 "https://www.facebook.com/" ["c_user", "xs"] loginInit =
      { loginInit with pendingRedirects := [0 + 3000] } ∧
    (didNavigate 5000 "https://www.messenger.com/t/1" []
      loginInit).hasLoggedIn = true ∧
    (didNavigate 3000 MESSENGER_URL ["c_user", "xs"]
      { loginInit with pendingRedirects := [3000] }).hasLoggedIn = true ∧
    didNavigate 5000 "https://www.messenger.com/t/1" ["c_user"]
      ⟨true, [], 1⟩ = ⟨true, [], 1⟩ ∧
    (runLogin loginInit
      [(0, "https://www.facebook.com/", ["c_user", "xs"]),
       (3000, MESSENGER_URL, ["c_user", "xs"])]).setTrueCount ≤ 1 :=
  ⟨loginStateMachine_spec.1 0 ["c_user", "xs"] loginInit rfl (by decide) (by decide),
   loginStateMachine_spec.2.1 5000 "https://www.messenger.com/t/1" [] loginInit (by decide),
   loginStateMachine_spec.2.2.1 3000 ["c_user", "xs"] _,
   loginStateMachine_spec.2.2.2.1 5000 "https://www.messenger.com/t/1" ["c_user"] _ rfl,
   loginStateMachine_spec.2.2.2.2.1 _⟩

/-- Helper: the greedy digit scan consumes exactly a leading run of digits
followed by a non-digit. -/
theorem takeDigits_all_digits_prefix (ds : List Char) (c0 : Char) (rest : List Char)
    (hd : ∀ c ∈ ds, isDigitChar c = true) (hc0 : isDigitChar c0 = false) :
    takeDigits (ds ++ c0 :: rest) = (ds, c0 :: rest) := by
  induction ds with
  | nil => simp [takeDigits, hc0]
  | cons d t ih =>
    have hdd : isDigitChar d = true := hd d (by simp)
    have ht : ∀ c ∈ t, isDigitChar c = true := fun c hc => hd c (by simp [hc])
    simp [takeDigits, hdd, ih ht]

/-- Helper: the digit scan splits its input. -/
theorem takeDigits_append : ∀ l : List Char, (takeDigits l).1 ++ (takeDigits l).2 = l := by
  intro l
  induction l with
  | nil => rfl
  | cons c cs ih =>
    by_cases hc : isDigitChar c = true
    · simp [takeDigits, hc, ih]
    · have hc' : isDigitChar c = false := by revert hc; cases isDigitChar c <;> simp
      simp [takeDigits, hc']

/-- Helper: every character in the scanned digit group is a digit. -/
theorem takeDigits_digits : ∀ l : List Char, ∀ c ∈ (takeDigits l).1, isDigitChar c = true := by
  intro l
  induction l with
  | nil => intro c hc; simp [takeDigits] at hc
  | cons c0 cs ih =>
    intro c hc
    by_cases h0 : isDigitChar c0 = true
    · simp only [takeDigits, h0, if_true] at hc
      rcases List.mem_cons.mp hc with h | h
      · rw [h]; exact h0
      · exact ih c h
    · have h0' : isDigitChar c0 = false := by revert h0; cases isDigitChar c0 <;> simp
      simp [takeDigits, h0'] at hc

/-- Helper: the regex matcher succeeds on well-formed markers, returning the
digit group. -/
theorem matchUnreadMarker_closed_form (ds rest : List Char)
    (hne : ds ≠ []) (hd : ∀ c ∈ ds, isDigitChar c = true) :
    matchUnreadMarker ('(' :: (ds ++ ')' :: rest)) = some ds ∧
    matchUnreadMarker ('(' :: (ds ++ '+' :: ')' :: rest)) = some ds := by
  have hne' : ds.isEmpty = false := by
    cases ds with
    | nil => exact absurd rfl hne
    | cons d t => rfl
  have h1 := takeDigits_all_digits_prefix ds ')' rest hd (by decide)
  have h2 := takeDigits_all_digits_prefix ds '+' (')' :: rest) hd (by decide)
  constructor
  · simp [matchUnreadMarker, h1, hne']
  · simp [matchUnreadMarker, h2, hne']

/-- Helper: inversion of a successful regex match — the title must carry a
well-formed `(N)` or `(N+)` marker whose digit group is the result. -/
theorem matchUnreadMarker_some (t ds : List Char)
    (h : matchUnreadMarker t = some ds) :
    ds ≠ [] ∧ (∀ c ∈ ds, isDigitChar c = true) ∧
    (∃ rest, t = '(' :: (ds ++ ')' :: rest) ∨ t = '(' :: (ds ++ '+' :: ')' :: rest)) := by
  cases t with
  | nil => exact absurd h (by simp [matchUnreadMarker])
  | cons c rest' =>
    by_cases hc : c = '('
    · subst hc
      simp only [matchUnreadMarker] at h
      rw [if_pos trivial] at h
      by_cases he : (takeDigits rest').1.isEmpty
      · rw [if_pos he] at h; cases h
      · rw [if_neg he] at h
        have hsplit := takeDigits_append rest'
        have hdig := takeDigits_digits rest'
        have hnonempty : (takeDigits rest').1 ≠ [] := by
          intro hnil
          rw [hnil] at he
          exact he rfl
        cases hp2 : (takeDigits rest').2 with
        | nil => rw [hp2] at h; cases h
        | cons c2 r2 =>
          rw [hp2] at h
          dsimp only [] at h
          by_cases hc2 : c2 = ')'
          · rw [if_pos hc2] at h
            have hds : (takeDigits rest').1 = ds := by injection h
            subst hds
            refine ⟨hnonempty, hdig, r2, Or.inl ?_⟩
            rw [← hc2, ← hp2, hsplit]
          · rw [if_neg hc2] at h
            by_cases hc2' : c2 = '+'
            · rw [if_pos hc2'] at h
              cases r2 with
              | nil => cases h
              | cons c3 r3 =>
                dsimp only [] at h
                by_cases hc3 : c3 = ')'
                · rw [if_pos hc3] at h
                  have hds : (takeDigits rest').1 = ds := by injection h
                  subst hds
                  refine ⟨hnonempty, hdig, r3, Or.inr ?_⟩
                  rw [← hc3, ← hc2', ← hp2, hsplit]
                · rw [if_neg hc3] at h; cases h
            · rw [if_neg hc2'] at h; cases h
    · exact absurd h (by simp [matchUnreadMarker, hc])

/-- C8: title parsing is total.  If the title starts with a marker `(N)` or
`(N+)` whose digit group has value at most 9999, the parser returns that
value; for every other title — no leading marker, or a marker whose value
exceeds 9999 — it returns 0 (and, being a total function, never throws); in
particular "(5) New messages" yields 5 and "(12+) ..." yields 12. -/
theorem parseUnreadFromTitle_spec :
    (∀ (t : List Char) (n : Nat),
      HasUnreadMarker t n → n ≤ 9999 → parseUnreadFromTitle t = n) ∧
    (∀ t : List Char,
      (¬ ∃ n, HasUnreadMarker t n ∧ n ≤ 9999) → parseUnreadFromTitle t = 0) ∧
    parseUnreadFromTitle "(5) New messages".data = 5 ∧
    parseUnreadFromTitle "(12+) ...".data = 12 := by
  refine ⟨?_, ?_, by decide, by decide⟩
  · rintro t n ⟨ds, rest, hne, hd, hval, ht | ht⟩ hle <;> subst ht
    · rw [parseUnreadFromTitle, (matchUnreadMarker_closed_form ds rest hne hd).1]
      show (if digitsToNat ds ≤ 9999 then digitsToNat ds else 0) = n
      rw [hval, if_pos hle]
    · rw [parseUnreadFromTitle, (matchUnreadMarker_closed_form ds rest hne hd).2]
      show (if digitsToNat ds ≤ 9999 then digitsToNat ds else 0) = n
      rw [hval, if_pos hle]
  · intro t hno
    cases hm : matchUnreadMarker t with
    | none => rw [parseUnreadFromTitle, hm]
    | some ds =>
      obtain ⟨hne, hd, rest, hcase⟩ := matchUnreadMarker_some t ds hm
      have hmark : HasUnreadMarker t (digitsToNat ds) := ⟨ds, rest, hne, hd, rfl, hcase⟩
      have hgt : ¬ digitsToNat ds ≤ 9999 := fun hle => hno ⟨digitsToNat ds, hmark, hle⟩
      rw [parseUnreadFromTitle, hm]
      show (if digitsToNat ds ≤ 9999 then digitsToNat ds else 0) = 0
      rw [if_neg hgt]

/-- Witness for C8: the marker rule applied at "(12+) hi" yields 12, and the
no-marker rule applied at "hello" yields 0. -/
theorem parseUnreadFromTitle_spec_witness :
    parseUnreadFromTitle ('(' :: (['1', '2'] ++ '+' :: ')' :: " hi".data)) = 12 ∧
    parseUnreadFromTitle "hello".data = 0 :=
  ⟨parseUnreadFromTitle_spec.1 _ 12
      ⟨['1', '2'], " hi".data, by decide, by decide, by decide, Or.inr rfl⟩
      (by decide),
   parseUnreadFromTitle_spec.2.1 "hello".data
      (by
        rintro ⟨n, ⟨ds, rest, -, -, -, hcase | hcase⟩, -⟩ <;>
          · injection hcase with h1 h2
            exact absurd h1 (by decide))⟩

/-- C3 counterexample: starting from stored count 0, the burst
`updateUnreadCount(1)` at t=0 then `updateUnreadCount(0)` at t=100 (both
within one 500 ms debounce interval) does not render the last observed value.
The second call equals the stored count and is dropped by the idempotency
check even though a timer for value 1 is pending, so the timer scheduled at
t=500 (500 ms after the *first* call) survives and the single rendered update
reflects 1, not the last value 0. -/
theorem tray_debounce_counterexample :
    (trayRun trayInit [(0, 1), (100, 0)]).2 = [] ∧
    (trayRun trayInit [(0, 1), (100, 0)]).1.pending = some (500, 1) ∧
    (flushTray (trayRun trayInit [(0, 1), (100, 0)]).1).2 = [1] ∧
    (flushTray (trayRun trayInit [(0, 1), (100, 0)]).1).2 ≠ [0] := by
  refine ⟨by decide, by decide, by decide, by decide⟩

/-- Helper: one-step unfolding of the tray event runner. -/
theorem trayRun_cons (m : TrayModel) (e : Nat × ℚ) (es : List (Nat × ℚ)) :
    trayRun m (e :: es) =
      ((trayRun (updateUnreadCount e.1 e.2 (fireIfDue e.1 m).1) es).1,
       (fireIfDue e.1 m).2 ++
         (trayRun (updateUnreadCount e.1 e.2 (fireIfDue e.1 m).1) es).2) := rfl

/-- Helper: during a burst of valid calls — each within 500 ms of the
previous, each with a count different from the (unchanged) stored count, and
the first arriving before any pending timer is due — nothing is rendered and
the single debounce slot ends up scheduled 500 ms after the last call with the
last call's count. -/
theorem trayRun_burst (t : Nat) (q : ℚ) (es : List (Nat × ℚ)) :
    ∀ m : TrayModel,
      (∀ p ∈ (t, q) :: es, p.2.den = 1 ∧ 0 ≤ p.2 ∧ p.2 ≠ (m.state.unreadCount : ℚ)) →
      List.Chain' (fun a b : Nat × ℚ => b.1 < a.1 + 500) ((t, q) :: es) →
      (∀ fc, m.pending = some fc → t < fc.1) →
      trayRun m ((t, q) :: es) =
        ({ m with pending := some ((((t, q) :: es).getLastD (t, q)).1 + 500,
            (((t, q) :: es).getLastD (t, q)).2.num) }, []) := by
  induction es generalizing t q with
  | nil =>
    intro m hvalid hchain hfirst
    obtain ⟨hden, hpos, hne⟩ := hvalid (t, q) (by simp)
    have hfire : fireIfDue t m = (m, []) := by
      cases hp : m.pending with
      | none => simp [fireIfDue, hp]
      | some fc =>
        have := hfirst fc hp
        simp only [fireIfDue, hp]
        rw [if_neg (by omega)]
    have hupd : updateUnreadCount t q m =
        { m with pending := some (t + 500, q.num) } := by
      unfold updateUnreadCount
      rw [if_pos ⟨hden, hpos⟩, if_neg hne]
      rfl
    simp only [trayRun, hfire, hupd]
    rfl
  | cons e2 es' ih =>
    intro m hvalid hchain hfirst
    obtain ⟨hden, hpos, hne⟩ := hvalid (t, q) (by simp)
    have hfire : fireIfDue t m = (m, []) := by
      cases hp : m.pending with
      | none => simp [fireIfDue, hp]
      | some fc =>
        have := hfirst fc hp
        simp only [fireIfDue, hp]
        rw [if_neg (by omega)]
    have hupd : updateUnreadCount t q m =
        { m with pending := some (t + 500, q.num) } := by
      unfold updateUnreadCount
      rw [if_pos ⟨hden, hpos⟩, if_neg hne]
      rfl
    have hrel : e2.1 < t + 500 := (List.chain'_cons.mp hchain).1
    have hchain' : List.Chain' (fun a b : Nat × ℚ => b.1 < a.1 + 500) (e2 :: es') :=
      (List.chain'_cons.mp hchain).2
    have hvalid' : ∀ p ∈ e2 :: es', p.2.den = 1 ∧ 0 ≤ p.2 ∧
        p.2 ≠ (({ m with pending := some (t + 500, q.num) } : TrayModel).state.unreadCount : ℚ) :=
      fun p hp => hvalid p (by simp [hp])
    have hkey := ih e2.1 e2.2 { m with pending := some (t + 500, q.num) }
      (by simpa using hvalid') (by simpa using hchain')
      (by rintro fc hfc; injection hfc with h; rw [← h]; exact hrel)
    rw [show ((e2.1, e2.2) : Nat × ℚ) = e2 from rfl] at hkey
    rw [trayRun_cons]
    dsimp only
    rw [hfire, hupd, hkey]
    rw [List.getLastD_cons, List.getLastD_cons, List.getLastD_cons]
    rfl

/-- C3 (amended): for every burst of calls to `updateUnreadCount` at
increasing times, each call within 500 ms of the previous, starting with no
pending timer, where every call carries a valid (integer, non-negative) count
different from the initially stored count, no intermediate value is rendered
during the burst, and the single surviving debounce timer fires 500 ms after
the last call, rendering exactly one update whose value is the last call's
value.  (The restriction to counts different from the stored count is forced
by the idempotency check: a burst call equal to the stored count is dropped
without cancelling the pending timer — see the counterexample.) -/
theorem tray_debounce_spec (t : Nat) (q : ℚ) (es : List (Nat × ℚ)) (m : TrayModel)
    (hpend : m.pending = none)
    (hvalid : ∀ p ∈ (t, q) :: es, p.2.den = 1 ∧ 0 ≤ p.2 ∧ p.2 ≠ (m.state.unreadCount : ℚ))
    (hchain : List.Chain' (fun a b : Nat × ℚ => b.1 < a.1 + 500) ((t, q) :: es)) :
    (trayRun m ((t, q) :: es)).2 = [] ∧
    (flushTray (trayRun m ((t, q) :: es)).1).2 =
      [(((t, q) :: es).getLastD (t, q)).2.num] ∧
    (flushTray (trayRun m ((t, q) :: es)).1).1.state.unreadCount =
      (((t, q) :: es).getLastD (t, q)).2.num ∧
    (flushTray (trayRun m ((t, q) :: es)).1).1.state.lastUpdate =
      (((t, q) :: es).getLastD (t, q)).1 + 500 := by
  have hrun := trayRun_burst t q es m hvalid hchain
    (by rintro fc hfc; rw [hpend] at hfc; cases hfc)
  rw [hrun]
  exact ⟨rfl, rfl, rfl, rfl⟩

/-- Witness for C3 (amended): the burst updateUnreadCount(1),
updateUnreadCount(2), updateUnreadCount(3) at times 0, 100, 200 from the
initial tray state renders nothing during the burst and exactly one update of
value 3 at time 700 = 200 + 500. -/
theorem tray_debounce_spec_witness :
    (trayRun trayInit [(0, 1), (100, 2), (200, 3)]).2 = [] ∧
    (flushTray (trayRun trayInit [(0, 1), (100, 2), (200, 3)]).1).2 =
      [([((0 : Nat), (1 : ℚ)), (100, 2), (200, 3)].getLastD (0, 1)).2.num] ∧
    (flushTray (trayRun trayInit [(0, 1), (100, 2), (200, 3)]).1).1.state.unreadCount =
      ([((0 : Nat), (1 : ℚ)), (100, 2), (200, 3)].getLastD (0, 1)).2.num ∧
    (flushTray (trayRun trayInit [(0, 1), (100, 2), (200, 3)]).1).1.state.lastUpdate =
      ([((0 : Nat), (1 : ℚ)), (100, 2), (200, 3)].getLastD (0, 1)).1 + 500 :=
  tray_debounce_spec 0 1 [(100, 2), (200, 3)] trayInit rfl
    (by decide)
    (List.chain'_cons.mpr ⟨by omega,
      List.chain'_cons.mpr ⟨by omega, List.chain'_singleton _⟩⟩)

end MessengerClient
